import Mathlib

/-!
Verification of the request-handling core of an HTTP→RPC gateway
(`src/route/app.rs`, `src/route/perf.rs`, `src/service/cocaine.rs`).

The Rust source is shallowly embedded: machine integers are `Nat` with
explicit `% 2^w` where wrap-around matters, byte buffers are `List Nat`,
`f64` settings values are idealised as `ℚ` (noted at each use), fallible
paths return `Option`/`Except`, and the side effect of firing a one-shot
reply channel is made explicit as a returned event value.
-/

/-! ## Bytes and little-endian packing (`pack_u64`, src/route/app.rs lines 37-41) -/

/-- Little-endian base-256 digits: `n` bytes of `v`, least significant first. -/
def packLE : Nat → Nat → List Nat
  | 0, _ => []
  | n + 1, v => (v % 256) :: packLE n (v / 256)

/-- Embeds `pack_u64`: `LittleEndian::write_u64` into an 8-byte buffer. -/
def pack_u64 (v : Nat) : List Nat :=
  packLE 8 v

/-- Reading a little-endian byte list back as an unsigned integer. -/
def unpack_u64 (bs : List Nat) : Nat :=
  bs.foldr (fun b acc => acc * 256 + b) 0

/-! ## Strings as bytes, and hyper-style header maps

`hyper` 0.11 stores headers in an insertion-ordered map keyed by the
ASCII-case-insensitive header name; `Headers::set` and `Headers::set_raw`
both *replace* the value of an existing entry with the same name (keeping
its position) and append a new entry otherwise. All strings appearing in
the verified code paths are ASCII, so the byte encoding of a string is
modelled by its code points. -/

deriving instance DecidableEq for Except

/-- Byte encoding of an (ASCII) string. -/
def strBytes (s : String) : List Nat :=
  s.toList.map Char.toNat

/-- ASCII lower-casing of one character (`String::to_lowercase` on the
ASCII header names in play). -/
def lowerChar (c : Char) : Char :=
  if c.toNat ≥ 65 && c.toNat ≤ 90 then Char.ofNat (c.toNat + 32) else c

/-- ASCII-case-insensitive header-name equality (hyper's `UniCase`). -/
def nameMatches (a b : String) : Bool :=
  a.toList.map lowerChar == b.toList.map lowerChar

/-- Value of the first header entry whose name matches case-insensitively. -/
def getHeaderCI (hs : List (String × String)) (name : String) : Option String :=
  (hs.find? (fun p => nameMatches p.1 name)).map (fun p => p.2)

/-- Embeds `Headers::set` / `Headers::set_raw` of hyper 0.11: replace the
value of every entry with a matching name in place, or append. -/
def setHeader (hs : List (String × String)) (name value : String) : List (String × String) :=
  if hs.any (fun p => nameMatches p.1 name) then
    hs.map (fun p => if nameMatches p.1 name then (p.1, value) else p)
  else
    hs ++ [(name, value)]

/-- Decimal parse of a `u64`, as hyper's `FromStr` impls do: non-empty,
all digits, value below `2^64`. -/
def parseU64 (s : String) : Option Nat :=
  if s.isEmpty then none
  else if s.toList.all (fun c => c.isDigit) then
    let v := s.toList.foldl (fun acc c => acc * 10 + (c.toNat - 48)) 0
    if v < 2 ^ 64 then some v else none
  else none

/-- Embeds `resp.headers().get::<ContentLength>()`: the first
`Content-Length` entry parsed as a `u64`, `none` when absent or unparsable. -/
def contentLength (hs : List (String × String)) : Option Nat :=
  (getHeaderCI hs "Content-Length").bind parseU64

/-! ## HTTP model (hyper `Method`, `StatusCode`, `Response`) -/

/-- HTTP request method; only `Head` is inspected by the verified code. -/
inductive Method where
  | get
  | head
  | post
  | other (name : String)
deriving DecidableEq, Repr

/-- A hyper `Response` assembled by the gateway: numeric status, ordered
header list, body bytes. `Response::new()` starts at `200 Ok` with no
headers and an empty body. -/
structure HttpResponse where
  status : Nat
  headers : List (String × String)
  body : List Nat
deriving DecidableEq, Repr

def HttpResponse.new : HttpResponse :=
  { status := 200, headers := [], body := [] }

def HttpResponse.withStatus (r : HttpResponse) (s : Nat) : HttpResponse :=
  { r with status := s }

def HttpResponse.withHeader (r : HttpResponse) (name value : String) : HttpResponse :=
  { r with headers := setHeader r.headers name value }

def HttpResponse.withBody (r : HttpResponse) (b : List Nat) : HttpResponse :=
  { r with body := b }

/-- Embeds hyper 0.11 `StatusCode::try_from(meta.code as u16)
.unwrap_or(StatusCode::InternalServerError)`: the `u32` is truncated to
16 bits by the `as u16` cast, and `try_from` accepts exactly the range
`100..=599`. -/
def statusFromCode (code : Nat) : Nat :=
  let n := code % 65536
  if 100 ≤ n ∧ n ≤ 599 then n else 500

/-! ## Header-map lemmas -/

/-! ## Folding backend meta headers into the response (`set_raw` loop) -/

/-- The loop `for (name, value) in meta.headers { resp.headers_mut().set_raw(..) }`
(src/route/app.rs lines 534-537). -/
def metaSetFold (base : List (String × String)) (l : List (String × String)) :
    List (String × String) :=
  l.foldl (fun hs p => setHeader hs p.1 p.2) base

/-- The value of the LAST entry of `l` whose name matches `n`, if any. -/
def metaLookup (l : List (String × String)) (n : String) : Option String :=
  (l.reverse.find? (fun p => nameMatches p.1 n)).map (fun p => p.2)

/-! ## Error taxonomy -/

/-- Embeds `route::app::Error` (src/route/app.rs lines 450-461). -/
inductive AppError where
  | incompleteHeadersMatch
  | invalidRequestIdHeader (name : String)
  | invalidBodyRead (msg : String)
  | canceled
deriving DecidableEq, Repr

/-- Embeds `Error::code` (src/route/app.rs lines 463-472). -/
def AppError.code : AppError → Nat
  | .incompleteHeadersMatch => 400
  | .invalidRequestIdHeader _ => 400
  | .invalidBodyRead _ => 500
  | .canceled => 500

/-- Embeds the `Display` impl of `Error` (src/route/app.rs lines 474-485). -/
def AppError.message : AppError → String
  | .incompleteHeadersMatch =>
      "either none or both `X-Cocaine-Service` and `X-Cocaine-Event` headers must be specified"
  | .invalidRequestIdHeader name => "Invalid `" ++ name ++ "` header value"
  | .invalidBodyRead msg => msg
  | .canceled => "canceled"

/-- Embeds `cocaine::Error` as consumed by the dispatcher: a service error
carries a category, a code and a display message; any other variant is kept
abstract together with its display message. -/
inductive CocaineError where
  | service (category code : Nat) (msg : String)
  | other (msg : String)
deriving DecidableEq, Repr

/-- The `Display` rendering `err.to_string()` of a `cocaine::Error`. -/
def CocaineError.message : CocaineError → String
  | .service _ _ m => m
  | .other m => m

/-! ## Parameter extraction (`AppRoute::extract_parameters`) -/

/-- Leftmost match of the route regex `/([^/]*)/([^/?]*)(.*)` — the pattern
built in `AppRoute::new` (src/route/app.rs line 67) carries no anchors, so
the engine scans for the leftmost `/`; `[^/]*` greedily takes the run up to
the next `/` (which must exist for the match to succeed), `[^/?]*` the
following run, and `(.*)` the remainder. -/
def regexCaptures : List Char → Option (List Char × List Char × List Char)
  | [] => none
  | c :: rest =>
    if c = '/' then
      match rest.dropWhile (fun d => d != '/') with
      | '/' :: r2 =>
        some (rest.takeWhile (fun d => d != '/'),
              r2.takeWhile (fun d => d != '/' && d != '?'),
              r2.dropWhile (fun d => d != '/' && d != '?'))
      | _ => regexCaptures rest
    else regexCaptures rest

/-- The ANCHORED pattern `^/([^/]*)/([^/?]*)(.*)$` that the specification
describes, written from the spec's words for comparison with the code's
unanchored pattern: it may only match at position 0. -/
def regexCapturesAnchored : List Char → Option (List Char × List Char × List Char)
  | [] => none
  | c :: rest =>
    if c = '/' then
      match rest.dropWhile (fun d => d != '/') with
      | '/' :: r2 =>
        some (rest.takeWhile (fun d => d != '/'),
              r2.takeWhile (fun d => d != '/' && d != '?'),
              r2.dropWhile (fun d => d != '/' && d != '?'))
      | _ => none
    else none

/-- Embeds `AppRoute::extract_parameters` (src/route/app.rs lines 85-112):
the header override pair first, then the URI regex, with the extracted tail
normalised to begin with `/`. The outer `none` is `Match::None`. -/
def extract_parameters (xService xEvent : Option String) (uri : String) :
    Option (Except AppError (String × String × String)) :=
  match xService, xEvent with
  | some service, some event => some (.ok (service, event, uri))
  | some _, none => some (.error .incompleteHeadersMatch)
  | none, some _ => some (.error .incompleteHeadersMatch)
  | none, none =>
    (regexCaptures uri.toList).map (fun cap =>
      let tail := if cap.2.2.head? = some '/' then cap.2.2 else '/' :: cap.2.2
      .ok (String.mk cap.1, String.mk cap.2.1, String.mk tail))

/-! ## Attempt headers and tracing identity (`AppWithSafeRetry`) -/

/-- A backend `hpack::RawHeader`: a byte name and a byte value. Names are
ASCII, so the name is kept as a string. -/
structure RawHeader where
  name : String
  value : List Nat
deriving DecidableEq, Repr

/-- Cocaine tracing headers carry their 64-bit id as 8 little-endian bytes
(`hpack::TraceId(v).into_raw()` and friends). -/
def traceIdHeader (v : Nat) : RawHeader :=
  { name := "trace_id", value := pack_u64 v }

def spanIdHeader (v : Nat) : RawHeader :=
  { name := "span_id", value := pack_u64 v }

def parentIdHeader (v : Nat) : RawHeader :=
  { name := "parent_id", value := pack_u64 v }

def traceBitHeader (b : Bool) : RawHeader :=
  { name := "trace_bit", value := [if b then 1 else 0] }

/-- The `request_timeout` raw header built at src/route/app.rs line 381. -/
def requestTimeoutHeader (millis : Nat) : RawHeader :=
  { name := "request_timeout", value := pack_u64 millis }

/-- Pool-provided `Settings` (crate::pool): an optional timeout in seconds
(an `f64`, idealised as `ℚ`) and the backend verbosity bit. -/
structure Settings where
  timeout : Option ℚ
  verbose : Bool
deriving DecidableEq, Repr

/-- `TracingPolicy` (crate::common): `Auto` defers to the backend,
`Manual p` samples locally with probability `p`. -/
inductive TracingPolicy where
  | auto
  | manual (p : ℚ)
deriving DecidableEq, Repr

/-- The saturating Rust cast `x as u64` on a non-`NaN` float idealised as a
rational: truncation toward zero, clamped into `[0, 2^64)`. -/
def f64AsU64 (q : ℚ) : Nat :=
  min (Int.toNat ⌊q⌋) (2 ^ 64 - 1)

/-- Embeds `AppWithSafeRetry::make_headers` (src/route/app.rs lines
336-349): ONE random span is drawn and `TraceId(trace)`, `SpanId(span)`,
`ParentId(trace)` are pushed after the mapped user headers. The
`is_empty` branch of the source only pre-allocates capacity. -/
def make_headers (headers : List RawHeader) (trace span : Nat) : List RawHeader :=
  headers ++ [traceIdHeader trace, spanIdHeader span, parentIdHeader trace]

/-- One attempt's wire headers and updated verbose latch, embedding the
closure body of `AppWithSafeRetry::make_future` (src/route/app.rs lines
359-382): the stored base headers are cloned; under `Manual` policy a
fresh draw may force `settings.verbose`; attempt 1 may set the latch; a
latched request carries `TraceBit(true)`; a provided timeout appends
`request_timeout` holding `(timeout * 1000.0) as u64` milliseconds (the
`f64` product is idealised as the exact rational product). -/
def make_future_headers (base : List RawHeader) (policy : TracingPolicy)
    (draw : ℚ) (settings : Settings) (attempt : Nat) (latchIn : Bool) :
    List RawHeader × Bool :=
  let manualVerbose : Option Bool :=
    match policy with
    | .auto => none
    | .manual v => some (decide (draw ≤ v))
  let sverbose := if manualVerbose = some true then true else settings.verbose
  let latch := if sverbose && attempt == 1 then true else latchIn
  let hs := base
  let hs := if latch then hs ++ [traceBitHeader true] else hs
  let hs :=
    match settings.timeout with
    | some t => hs ++ [requestTimeoutHeader (f64AsU64 (t * 1000))]
    | none => hs
  (hs, latch)

/-- The retry state machine's per-request state (src/route/app.rs lines
305-314): the stored `headers` are built once in `new` and never touched
again; only `attempts` and the current future change. -/
structure AppWithSafeRetry where
  attempts : Nat
  limit : Nat
  trace : Nat
  headers : List RawHeader
  tracing_policy : TracingPolicy
deriving Repr

/-- Embeds `AppWithSafeRetry::new` (lines 317-334): `attempts` starts at 1
and `make_headers` is called exactly once, with one random `span`. -/
def AppWithSafeRetry.new (userHeaders : List RawHeader) (trace span : Nat)
    (limit : Nat) (policy : TracingPolicy) : AppWithSafeRetry :=
  { attempts := 1
    limit := limit
    trace := trace
    headers := make_headers userHeaders trace span
    tracing_policy := policy }

/-- The state change of one retry transition in `poll` (lines 425-428): a
new future is made from the UNCHANGED stored headers and `attempts` is
incremented; no new span is drawn. -/
def retryStep (m : AppWithSafeRetry) : AppWithSafeRetry :=
  { m with attempts := m.attempts + 1 }

/-- The values of all raw headers with the given name. -/
def valuesNamed (n : String) (hs : List RawHeader) : List (List Nat) :=
  (hs.filter (fun h => h.name == n)).map (fun h => h.value)

/-! ## The response dispatcher (`AppReadDispatch`) -/

/-- Embeds `ResponseMeta` (src/route/app.rs lines 249-253): a 32-bit code
and the backend's raw response headers. -/
structure ResponseMeta where
  code : Nat
  headers : List (String × String)
deriving DecidableEq, Repr

/-- One delivery to the dispatcher after
`response.deserialize::<Streaming<RawRef>>().flatten()` (line 510):
`Ok(Some(data))` is a data chunk, `Ok(None)` the close frame, `Err` a
backend error. -/
inductive StreamItem where
  | chunk (data : List Nat)
  | close
  | err (e : CocaineError)
deriving DecidableEq, Repr

/-- Embeds the `AppReadDispatch` state (lines 500-506); the one-shot `tx`
is made explicit in the return value of `appReadProcess`. -/
structure AppReadDispatch where
  method : Method
  body : Option (List Nat)
  trace : Nat
  response : Option HttpResponse
deriving DecidableEq, Repr

/-- The dispatcher registered for one attempt (lines 387-392). -/
def initDispatch (method : Method) (trace : Nat) : AppReadDispatch :=
  { method := method, body := none, trace := trace,
    response := some HttpResponse.new }

/-- The meta branch (lines 528-538): status from `meta.code as u16` with
fallback 500, then `X-Request-Id`, then every meta header via `set_raw`. -/
def applyMeta (trace : Nat) (r : HttpResponse) (meta : ResponseMeta) : HttpResponse :=
  let r1 := (r.withStatus (statusFromCode meta.code)).withHeader
    "X-Request-Id" (toString trace)
  { r1 with headers := metaSetFold r1.headers meta.headers }

/-- The close-branch body-inclusion rules (lines 548-587, RFC 2616 §4.4). -/
def closeResult (method : Method) (r : HttpResponse) (buf : List Nat) :
    HttpResponse × Nat :=
  if method = .head then (r, 0)
  else if r.status = 204 || r.status = 304 then (r, 0)
  else
    let hasBody := (!buf.isEmpty)
      && (((contentLength r.headers).map (fun len => decide (0 < len))).getD true)
    if hasBody then (r.withBody buf, buf.length) else (r, 0)

/-- What the dispatcher sends on its one-shot channel: `none` is the
safe-retry signal, `some` a finished response with its reported size. -/
abbrev ReplyEvent := Option (HttpResponse × Nat)

/-- The guard `err.category() == 0x52ff && err.code() == 1` on the
`Err(Service(..))` arm (src/route/app.rs line 605). -/
def isSafeRetryError : CocaineError → Bool
  | .service cat code _ => cat == 0x52ff && code == 1
  | .other _ => false

/-- The check `err.category() == 0x54ff` inside the generic error arm
(src/route/app.rs lines 618-621). -/
def isVicodynError : CocaineError → Bool
  | .service cat _ _ => cat == 0x54ff
  | .other _ => false

/-- The check `err.category() == 10 && err.code() == 1` in `discard`
(src/route/app.rs lines 634-642). -/
def isDiscardUnavailable : CocaineError → Bool
  | .service cat code _ => cat == 10 && code == 1
  | .other _ => false

/-- Embeds `AppReadDispatch::process` (src/route/app.rs lines 509-628).
The result pairs the continuation dispatcher (`None` deregisters) with the
list of values sent on `tx` during the call, in order. `decodeMeta` stands
for `rmps::from_slice::<ResponseMeta>`. -/
def appReadProcess (decodeMeta : List Nat → Except String ResponseMeta)
    (st : AppReadDispatch) (item : StreamItem) :
    Option AppReadDispatch × List ReplyEvent :=
  match item with
  | .chunk data =>
    match st.body with
    | none =>
      match decodeMeta data with
      | .error err =>
        let bodySize := (strBytes err).length
        let resp := ((HttpResponse.new.withStatus 500).withHeader
          "X-Request-Id" (toString st.trace)).withBody (strBytes err)
        (none, [some (resp, bodySize)])
      | .ok meta =>
        let resp := applyMeta st.trace (st.response.getD HttpResponse.new) meta
        (some { st with response := some resp, body := some [] }, [])
    | some buf =>
      (some { st with body := some (buf ++ data) }, [])
  | .close =>
    match st.body with
    | some buf =>
      let rs := closeResult st.method (st.response.getD HttpResponse.new) buf
      (none, [some rs])
    | none =>
      let err := "received `close` event without prior meta info"
      let resp := ((HttpResponse.new.withStatus 500).withHeader
        "X-Request-Id" (toString st.trace)).withBody (strBytes err)
      (none, [some (resp, (strBytes err).length)])
  | .err e =>
    if isSafeRetryError e then (none, [none])
    else
      let body := strBytes e.message
      let resp := ((HttpResponse.new.withStatus 500).withHeader
        "X-Request-Id" (toString st.trace)).withBody body
      let resp :=
        if isVicodynError e then resp.withHeader "X-Error-Generated-By" "vicodyn"
        else resp
      (none, [some (resp, body.length)])

/-- Embeds `AppReadDispatch::discard` (src/route/app.rs lines 630-649). -/
def appReadDiscard (st : AppReadDispatch) (e : CocaineError) : HttpResponse × Nat :=
  let body := strBytes e.message
  let status : Nat := if isDiscardUnavailable e then 503 else 500
  let resp := ((HttpResponse.new.withStatus status).withHeader
    "X-Request-Id" (toString st.trace)).withBody body
  (resp, body.length)

/-- Folding a list of stream deliveries through the dispatcher, collecting
every value sent on the one-shot channel; the fold stops when `process`
returns no continuation (the dispatcher deregisters and receives nothing
further). -/
def runDispatch (decodeMeta : List Nat → Except String ResponseMeta) :
    AppReadDispatch → List StreamItem → Option AppReadDispatch × List ReplyEvent
  | st, [] => (some st, [])
  | st, i :: rest =>
    match appReadProcess decodeMeta st i with
    | (none, evs) => (none, evs)
    | (some st2, evs) =>
      let r := runDispatch decodeMeta st2 rest
      (r.1, evs ++ r.2)

/-! ## The safe-retry polling loop -/

/-- The eventual result of one attempt's future as seen by
`AppWithSafeRetry::poll`: `Ready(Some(..))`, `Ready(None)` (the
safe-retry signal) or `Err(..)`. -/
inductive AttemptOutcome where
  | success (resp : HttpResponse) (bytes : Nat)
  | retriable
  | failure (e : AppError)
deriving DecidableEq, Repr

/-- The body of the retry-exhaustion response (src/route/app.rs line 430). -/
def retryBody : List Nat :=
  strBytes "Retry limit exceeded: queue is full"

/-- The synthesized retry-exhaustion response (lines 430-436). -/
def retryExceededResponse (trace : Nat) : HttpResponse :=
  ((HttpResponse.new.withStatus 500).withHeader
    "X-Request-Id" (toString trace)).withBody retryBody

/-- Embeds the recursion of `AppWithSafeRetry::poll` (src/route/app.rs
lines 415-448) over the eventual outcomes of the successive attempts
(`none` in the list means that attempt's future never resolved, i.e. the
machine is still `NotReady`; the machine result `none` means it has not
completed). `attempts` starts at 1. -/
def runRetry (trace limit : Nat) :
    Nat → List (Option AttemptOutcome) → Option (Except AppError (HttpResponse × Nat))
  | _, [] => none
  | _, none :: _ => none
  | attempts, some o :: rest =>
    match o with
    | .success resp bytes => some (.ok (resp, bytes))
    | .failure e => some (.error e)
    | .retriable =>
      if attempts < limit then
        runRetry trace limit (attempts + 1) rest
      else
        some (.ok (retryExceededResponse trace, retryBody.length))

/-- The retry limit hard-coded at the `AppWithSafeRetry::new` call in
`AppRoute::invoke` (src/route/app.rs line 158). -/
def invokeRetryLimit : Nat := 3

/-! ## The `invoke` pipeline (trace determination and final annotation) -/

/-- The configured tracing header; `AppRoute::new` uses
`XRequestId::header_name()` (src/route/app.rs line 62). -/
def tracingHeaderName : String := "X-Request-Id"

/-- Modelled from the spec: `XRequestId::parse_header` lives in
`crate::common`, outside the sources under verification; the spec states
the tracing header holds a 64-bit integer and that an unparsable value
fails the request. Parsed here as a decimal `u64`. -/
def parseTraceHeader (s : String) : Option Nat :=
  parseU64 s

/-- Trace determination at the head of `AppRoute::invoke` (src/route/app.rs
lines 131-142): a present tracing header must parse, an absent one is
replaced by a fresh random 64-bit value (`fresh`). -/
def determineTrace (header : Option String) (fresh : Nat) : Except AppError Nat :=
  match header with
  | some s =>
    match parseTraceHeader s with
    | some v => .ok v
    | none => .error (.invalidRequestIdHeader tracingHeaderName)
  | none => .ok fresh

/-- Modelled from the spec: the fixed `X-Powered-By` identifier set on
success lives in `crate::common`, outside the sources under verification. -/
def xPoweredByValue : String := "Cocaine"

/-- The success annotation in `AppRoute::invoke` (src/route/app.rs lines
162-165): `X-Powered-By` and `X-Cocaine-App: <service>`. -/
def finalize (service : String) (r : HttpResponse) : HttpResponse :=
  (r.withHeader "X-Powered-By" xPoweredByValue).withHeader "X-Cocaine-App" service

/-- The trace that ends up on the wire for a request whose tracing header,
when present, parses. -/
def wireTraceOf (header : Option String) (fresh : Nat) : Nat :=
  match header with
  | some s => (parseTraceHeader s).getD fresh
  | none => fresh

/-- What the pool does with one attempt: deliver a list of stream frames to
the dispatcher, then possibly discard it (only reachable while it is still
registered), or cancel the one-shot without ever firing it. -/
inductive AttemptRun where
  | stream (items : List StreamItem) (disc : Option CocaineError)
  | canceled
deriving DecidableEq, Repr

/-- The eventual outcome one attempt's future hands to `poll`: the fired
reply event, mapped through `rx.map_err(|Canceled| Error::Canceled)`. -/
def attemptOutcome (decodeMeta : List Nat → Except String ResponseMeta)
    (method : Method) (trace : Nat) : AttemptRun → Option AttemptOutcome
  | .canceled => some (.failure .canceled)
  | .stream items disc =>
    match runDispatch decodeMeta (initDispatch method trace) items with
    | (none, evs) =>
      (evs.head?).map (fun ev =>
        match ev with
        | some (resp, bytes) => .success resp bytes
        | none => .retriable)
    | (some st, _) =>
      match disc with
      | some e =>
        let rb := appReadDiscard st e
        some (.success rb.1 rb.2)
      | none => none

/-- The composed result of `AppRoute::invoke` (src/route/app.rs lines
128-177) over the attempt runs supplied by the pool: trace determination,
the safe-retry machine with limit 3, and the success annotations. `none`
means the future has not resolved. -/
def invokeRun (decodeMeta : List Nat → Except String ResponseMeta)
    (header : Option String) (fresh : Nat) (service : String) (method : Method)
    (runs : List AttemptRun) : Option (Except AppError (HttpResponse × Nat)) :=
  match determineTrace header fresh with
  | .error e => some (.error e)
  | .ok trace =>
    match runRetry trace invokeRetryLimit 1
        (runs.map (attemptOutcome decodeMeta method trace)) with
    | none => none
    | some (.ok (resp, size)) => some (.ok (finalize service resp, size))
    | some (.error e) => some (.error e)

/-! ## Perf route -/

/-- The value or panic of a Rust function call. -/
inductive RustOutcome (α : Type) where
  | value (a : α)
  | panicked (msg : String)
deriving DecidableEq, Repr

/-- Embeds `PerfRoute::process` (src/route/perf.rs lines 39-65): its body
is `todo!()` — every call panics; the geobase dispatch the module
documentation describes is commented out. -/
def perfProcess (_uri : String) : RustOutcome (Option HttpResponse) :=
  .panicked "not yet implemented"

/-- Embeds `SingleChunkReadDispatch::process` (src/route/perf.rs lines
73-89): `res` is `response.deserialize::<Primitive<i64>>().flatten()`, and
`debugMsg` stands for `format!("{:?}", err)`. -/
def singleChunkProcess (debugMsg : CocaineError → String)
    (res : Except CocaineError Int) :
    Option Unit × List (HttpResponse × Nat) :=
  let cb : Nat × String :=
    match res with
    | .ok v => (200, "[" ++ toString v ++ "]")
    | .error err => (500, debugMsg err)
  let bodyLen := (strBytes cb.2).length
  let resp := ((HttpResponse.new.withStatus cb.1).withHeader
    "Content-Length" (toString bodyLen)).withBody (strBytes cb.2)
  (none, [(resp, bodyLen)])

/-! ## Supporting lemmas -/

theorem unpack_packLE (n v : Nat) : unpack_u64 (packLE n v) = v % 256 ^ n := by
  induction n generalizing v with
  | zero => simp [packLE, unpack_u64, Nat.mod_one]
  | succ n ih =>
    have h := ih (v / 256)
    simp only [packLE, unpack_u64, List.foldr_cons] at h ⊢
    rw [h, ← Nat.mod_mul_right_div_self]
    have hmod : v % 256 = v % (256 * 256 ^ n) % 256 :=
      (Nat.mod_mod_of_dvd v (dvd_mul_right 256 (256 ^ n))).symm
    rw [hmod]
    have hdm := Nat.div_add_mod (v % (256 * 256 ^ n)) 256
    rw [pow_succ, mul_comm (256 ^ n) 256]
    omega

theorem unpack_pack_u64 (v : Nat) (h : v < 2 ^ 64) : unpack_u64 (pack_u64 v) = v := by
  have h256 : (256 : Nat) ^ 8 = 2 ^ 64 := by norm_num
  rw [pack_u64, unpack_packLE, h256, Nat.mod_eq_of_lt h]

theorem pack_u64_length (v : Nat) : (pack_u64 v).length = 8 := by
  rfl

theorem nameMatches_refl (a : String) : nameMatches a a = true := by
  simp [nameMatches]

theorem nameMatches_trans {a b c : String} (h1 : nameMatches a b = true)
    (h2 : nameMatches b c = true) : nameMatches a c = true := by
  simp only [nameMatches, beq_iff_eq] at h1 h2 ⊢
  rw [h1, h2]

theorem nameMatches_symm {a b : String} (h : nameMatches a b = true) :
    nameMatches b a = true := by
  simp only [nameMatches, beq_iff_eq] at h ⊢
  rw [h]

/-- Unfolding `setHeader` over a head entry whose name does not match. -/
theorem setHeader_cons_not_match (p : String × String) (t : List (String × String))
    {m : String} (v : String) (hp : nameMatches p.1 m = false) :
    setHeader (p :: t) m v = p :: setHeader t m v := by
  unfold setHeader
  by_cases hany : t.any (fun q => nameMatches q.1 m) = true
  · simp [List.any_cons, hp, hany]
  · simp [List.any_cons, hp, hany]

/-- Unfolding `setHeader` over a head entry whose name matches. -/
theorem setHeader_cons_match (p : String × String) (t : List (String × String))
    {m : String} (v : String) (hp : nameMatches p.1 m = true) :
    setHeader (p :: t) m v
      = (p.1, v) :: t.map (fun q => if nameMatches q.1 m then (q.1, v) else q) := by
  unfold setHeader
  simp [List.any_cons, hp]

/-- Replacing the values of entries named `m` does not change the lookup of a
name that does not match `m`. -/
theorem getHeaderCI_map_replace_other (t : List (String × String)) {m n : String}
    (v : String) (h : nameMatches m n = false) :
    getHeaderCI (t.map (fun q => if nameMatches q.1 m then (q.1, v) else q)) n
      = getHeaderCI t n := by
  induction t with
  | nil => rfl
  | cons q t ih =>
    by_cases hq : nameMatches q.1 m = true
    · have hqn : nameMatches q.1 n = false := by
        by_contra hcon
        rw [Bool.not_eq_false] at hcon
        rw [nameMatches_trans (nameMatches_symm hq) hcon] at h
        exact absurd h (by simp)
      have hmap : (if nameMatches q.1 m then (q.1, v) else q) = (q.1, v) := by
        simp [hq]
      rw [List.map_cons, hmap]
      unfold getHeaderCI
      rw [List.find?_cons_of_neg _ (by simp [hqn]),
        List.find?_cons_of_neg _ (by simp [hqn])]
      exact ih
    · rw [Bool.not_eq_true] at hq
      have hmap : (if nameMatches q.1 m then (q.1, v) else q) = q := by
        simp [hq]
      rw [List.map_cons, hmap]
      by_cases hqn : nameMatches q.1 n = true
      · unfold getHeaderCI
        rw [List.find?_cons_of_pos _ (by simp [hqn]),
          List.find?_cons_of_pos _ (by simp [hqn])]
      · rw [Bool.not_eq_true] at hqn
        unfold getHeaderCI
        rw [List.find?_cons_of_neg _ (by simp [hqn]),
          List.find?_cons_of_neg _ (by simp [hqn])]
        exact ih

/-- Looking up a name just set yields the new value. -/
theorem getHeaderCI_setHeader_same (hs : List (String × String)) {m n : String}
    (v : String) (h : nameMatches m n = true) :
    getHeaderCI (setHeader hs m v) n = some v := by
  induction hs with
  | nil =>
    unfold setHeader getHeaderCI
    simp [List.find?, h]
  | cons p t ih =>
    by_cases hp : nameMatches p.1 m = true
    · rw [setHeader_cons_match p t v hp]
      unfold getHeaderCI
      rw [List.find?_cons_of_pos _ (by simp [nameMatches_trans hp h])]
      rfl
    · rw [Bool.not_eq_true] at hp
      rw [setHeader_cons_not_match p t v hp]
      have hpn : nameMatches p.1 n = false := by
        by_contra hcon
        rw [Bool.not_eq_false] at hcon
        rw [nameMatches_trans hcon (nameMatches_symm h)] at hp
        exact absurd hp (by simp)
      unfold getHeaderCI
      rw [List.find?_cons_of_neg _ (by simp [hpn])]
      exact ih

/-- Setting one name does not disturb the lookup of a non-matching name. -/
theorem getHeaderCI_setHeader_other (hs : List (String × String)) {m n : String}
    (v : String) (h : nameMatches m n = false) :
    getHeaderCI (setHeader hs m v) n = getHeaderCI hs n := by
  induction hs with
  | nil =>
    unfold setHeader getHeaderCI
    simp [List.find?, h]
  | cons p t ih =>
    by_cases hp : nameMatches p.1 m = true
    · have hpn : nameMatches p.1 n = false := by
        by_contra hcon
        rw [Bool.not_eq_false] at hcon
        rw [nameMatches_trans (nameMatches_symm hp) hcon] at h
        exact absurd h (by simp)
      rw [setHeader_cons_match p t v hp]
      unfold getHeaderCI
      rw [List.find?_cons_of_neg _ (by simp [hpn]),
        List.find?_cons_of_neg _ (by simp [hpn])]
      exact getHeaderCI_map_replace_other t v h
    · rw [Bool.not_eq_true] at hp
      rw [setHeader_cons_not_match p t v hp]
      by_cases hpn : nameMatches p.1 n = true
      · unfold getHeaderCI
        rw [List.find?_cons_of_pos _ (by simp [hpn]),
          List.find?_cons_of_pos _ (by simp [hpn])]
      · rw [Bool.not_eq_true] at hpn
        unfold getHeaderCI
        rw [List.find?_cons_of_neg _ (by simp [hpn]),
          List.find?_cons_of_neg _ (by simp [hpn])]
        exact ih

theorem metaLookup_nil (n : String) : metaLookup [] n = none := rfl

theorem metaLookup_cons (p : String × String) (t : List (String × String)) (n : String) :
    metaLookup (p :: t) n
      = (metaLookup t n).orElse
          (fun _ => if nameMatches p.1 n then some p.2 else none) := by
  unfold metaLookup
  rw [List.reverse_cons, List.find?_append]
  by_cases hp : nameMatches p.1 n = true
  · cases hfind : (t.reverse.find? fun p => nameMatches p.1 n) with
    | none => simp [hfind, List.find?, hp, Option.orElse]
    | some q => simp [hfind, Option.orElse]
  · rw [Bool.not_eq_true] at hp
    cases hfind : (t.reverse.find? fun p => nameMatches p.1 n) with
    | none => simp [hfind, List.find?, hp, Option.orElse]
    | some q => simp [hfind, Option.orElse]

/-- If no meta entry matches `n`, the `set_raw` loop leaves the lookup of `n`
unchanged. -/
theorem getHeaderCI_metaSetFold_none (l : List (String × String))
    (base : List (String × String)) {n : String} (h : metaLookup l n = none) :
    getHeaderCI (metaSetFold base l) n = getHeaderCI base n := by
  induction l generalizing base with
  | nil => rfl
  | cons p t ih =>
    rw [metaLookup_cons] at h
    have ht : metaLookup t n = none := by
      cases hm : metaLookup t n with
      | none => rfl
      | some v => rw [hm] at h; simp [Option.orElse] at h
    have hp : nameMatches p.1 n = false := by
      rw [ht] at h
      by_cases hc : nameMatches p.1 n = true
      · simp [Option.orElse, hc] at h
      · rw [Bool.not_eq_true] at hc; exact hc
    show getHeaderCI (metaSetFold (setHeader base p.1 p.2) t) n = _
    rw [ih (setHeader base p.1 p.2) ht, getHeaderCI_setHeader_other base p.2 hp]

/-- If some meta entry matches `n`, the `set_raw` loop makes the lookup of `n`
return the LAST matching entry's value (later entries replace earlier ones). -/
theorem getHeaderCI_metaSetFold_some (l : List (String × String))
    (base : List (String × String)) {n : String} {v : String}
    (h : metaLookup l n = some v) :
    getHeaderCI (metaSetFold base l) n = some v := by
  induction l generalizing base with
  | nil => simp [metaLookup_nil] at h
  | cons p t ih =>
    rw [metaLookup_cons] at h
    cases hm : metaLookup t n with
    | some w =>
      rw [hm] at h
      simp [Option.orElse] at h
      subst h
      show getHeaderCI (metaSetFold (setHeader base p.1 p.2) t) n = _
      exact ih (setHeader base p.1 p.2) hm
    | none =>
      rw [hm] at h
      simp [Option.orElse] at h
      obtain ⟨hp, hv⟩ := h
      subst hv
      show getHeaderCI (metaSetFold (setHeader base p.1 p.2) t) n = _
      rw [getHeaderCI_metaSetFold_none t _ hm]
      exact getHeaderCI_setHeader_same base p.2 hp

theorem dropSlash_eq_nil_iff (cs : List Char) :
    cs.dropWhile (fun d => d != '/') = [] ↔ List.count '/' cs = 0 := by
  induction cs with
  | nil => simp
  | cons c t ih =>
    by_cases hc : c = '/'
    · subst hc
      simp [List.dropWhile_cons, List.count_cons]
    · simp [List.dropWhile_cons, List.count_cons, hc, ih]

theorem dropSlash_shape (cs : List Char) :
    cs.dropWhile (fun d => d != '/') = []
      ∨ ∃ r, cs.dropWhile (fun d => d != '/') = '/' :: r := by
  induction cs with
  | nil => left; rfl
  | cons c t ih =>
    by_cases hc : c = '/'
    · subst hc
      right
      exact ⟨t, by simp [List.dropWhile_cons]⟩
    · simpa [List.dropWhile_cons, hc] using ih

/-- The unanchored route regex fails to match exactly when the URI holds
fewer than two slashes. -/
theorem regexCaptures_eq_none_iff (cs : List Char) :
    regexCaptures cs = none ↔ List.count '/' cs < 2 := by
  induction cs with
  | nil => simp [regexCaptures]
  | cons c t ih =>
    by_cases hc : c = '/'
    · subst hc
      rcases dropSlash_shape t with hnil | ⟨r, hr⟩
      · have hcount := (dropSlash_eq_nil_iff t).mp hnil
        rw [regexCaptures, if_pos rfl, hnil]
        constructor
        · intro _
          simp [List.count_cons, hcount]
        · intro _
          exact ih.mpr (by omega)
      · have hcount : List.count '/' t ≠ 0 := by
          intro h0
          rw [(dropSlash_eq_nil_iff t).mpr h0] at hr
          exact List.noConfusion hr
        rw [regexCaptures, if_pos rfl, hr]
        constructor
        · intro h
          exact Option.noConfusion h
        · intro h
          exfalso
          have h1 : List.count '/' t + 1 < 2 := by
            simpa [List.count_cons] using h
          omega
    · rw [regexCaptures, if_neg hc]
      simp [List.count_cons, hc, ih]

/-- The headers of a `closeResult` response are those of the stored
response: the close branch only decides status-independent body inclusion. -/
theorem closeResult_headers (method : Method) (r : HttpResponse) (buf : List Nat) :
    (closeResult method r buf).1.headers = r.headers := by
  unfold closeResult
  by_cases hm : method = .head
  · simp [hm]
  · by_cases hs : (r.status = 204 || r.status = 304) = true
    · simp [hm, hs]
    · by_cases hb : ((!buf.isEmpty)
        && (((contentLength r.headers).map (fun len => decide (0 < len))).getD true)) = true
      · simp [hm, hs, hb, HttpResponse.withBody]
      · simp [hm, hs, hb]

/-- Every `process` call either continues and sends nothing, or stops and
sends exactly one value. -/
theorem appReadProcess_shape (decode : List Nat → Except String ResponseMeta)
    (st : AppReadDispatch) (item : StreamItem) :
    ((appReadProcess decode st item).1.isSome = true
      ∧ (appReadProcess decode st item).2 = [])
    ∨ ((appReadProcess decode st item).1 = none
      ∧ (appReadProcess decode st item).2.length = 1) := by
  cases item with
  | chunk data =>
    cases hb : st.body with
    | none =>
      cases hd : decode data with
      | error err => right; constructor <;> simp [appReadProcess, hb, hd]
      | ok meta => left; constructor <;> simp [appReadProcess, hb, hd]
    | some buf => left; constructor <;> simp [appReadProcess, hb]
  | close =>
    cases hb : st.body with
    | some buf => right; constructor <;> simp [appReadProcess, hb]
    | none => right; constructor <;> simp [appReadProcess, hb]
  | err e =>
    by_cases hs : isSafeRetryError e = true
    · right; constructor <;> simp [appReadProcess, hs]
    · right; constructor <;> simp [appReadProcess, hs]

/-- A dispatcher fold either is still registered having sent nothing, or
has deregistered having sent exactly one value. -/
theorem runDispatch_shape (decode : List Nat → Except String ResponseMeta) :
    ∀ (items : List StreamItem) (st : AppReadDispatch),
    ((runDispatch decode st items).1.isSome = true
      ∧ (runDispatch decode st items).2 = [])
    ∨ ((runDispatch decode st items).1 = none
      ∧ (runDispatch decode st items).2.length = 1) := by
  intro items
  induction items with
  | nil => intro st; left; exact ⟨rfl, rfl⟩
  | cons i rest ih =>
    intro st
    rcases hres : appReadProcess decode st i with ⟨cont, evs⟩
    have hshape := appReadProcess_shape decode st i
    rw [hres] at hshape
    rcases hshape with ⟨hsome, hevs⟩ | ⟨hnone, hlen⟩
    · rcases Option.isSome_iff_exists.mp hsome with ⟨st2, hst2⟩
      subst hst2
      simp only at hevs
      subst hevs
      rcases ih st2 with ⟨h1, h2⟩ | ⟨h1, h2⟩
      · left
        constructor <;> simp [runDispatch, hres, h1, h2]
      · right
        constructor <;> simp [runDispatch, hres, h1, h2]
    · subst hnone
      right
      constructor <;> simp [runDispatch, hres, hlen]

/-- `runRetry` started at attempt `a ≤ limit` only ever inspects the first
`limit + 1 - a` attempt outcomes. -/
theorem runRetry_take (trace limit : Nat) :
    ∀ (os : List (Option AttemptOutcome)) (a : Nat), a ≤ limit →
    runRetry trace limit a os = runRetry trace limit a (os.take (limit + 1 - a)) := by
  intro os
  induction os with
  | nil =>
    intro a _
    simp [List.take_nil]
  | cons o os ih =>
    intro a ha
    obtain ⟨k, hk⟩ : ∃ k, limit + 1 - a = k + 1 := ⟨limit - a, by omega⟩
    rw [hk, List.take_succ_cons]
    cases o with
    | none => rfl
    | some o =>
      cases o with
      | success r b => rfl
      | failure e => rfl
      | retriable =>
        by_cases hlt : a < limit
        · simp only [runRetry, if_pos hlt]
          rw [ih (a + 1) (by omega)]
          rw [show limit + 1 - (a + 1) = k by omega]
        · simp only [runRetry, if_neg hlt]

/-- C2: driven by safe-retriable failures, the machine constructed with
limit 3 by `AppRoute::invoke` inspects at most 3 attempt outcomes; after
the third consecutive safe failure it completes with the synthesized HTTP
500 "Retry limit exceeded: queue is full" response carrying
`X-Request-Id: trace`; an attempt yielding a response completes the
machine with it, and an attempt yielding an error fails it. -/
theorem claim_C2_retry_limit :
    ∀ trace : Nat,
    (∀ os, runRetry trace invokeRetryLimit 1 os
        = runRetry trace invokeRetryLimit 1 (os.take 3))
    ∧ (∀ rest, runRetry trace invokeRetryLimit 1
        (some .retriable :: some .retriable :: some .retriable :: rest)
        = some (.ok (retryExceededResponse trace, 35)))
    ∧ (retryExceededResponse trace).status = 500
    ∧ (retryExceededResponse trace).body = strBytes "Retry limit exceeded: queue is full"
    ∧ getHeaderCI (retryExceededResponse trace).headers "X-Request-Id"
        = some (toString trace)
    ∧ (∀ (j : Nat) (r : HttpResponse) (b : Nat) rest, j < 3 →
        runRetry trace invokeRetryLimit 1
          (List.replicate j (some .retriable) ++ some (.success r b) :: rest)
          = some (.ok (r, b)))
    ∧ (∀ (j : Nat) (e : AppError) rest, j < 3 →
        runRetry trace invokeRetryLimit 1
          (List.replicate j (some .retriable) ++ some (.failure e) :: rest)
          = some (.error e)) := by
  intro trace
  refine ⟨?_, ?_, rfl, rfl, rfl, ?_, ?_⟩
  · intro os
    have h := runRetry_take trace invokeRetryLimit os 1 (by decide)
    simpa [invokeRetryLimit] using h
  · intro rest
    rfl
  · intro j r b rest hj
    interval_cases j
    · rfl
    · rfl
    · rfl
  · intro j e rest hj
    interval_cases j
    · rfl
    · rfl
    · rfl

/-- C2 witness: one safe failure followed by a successful attempt completes
with that attempt's response after exactly two attempts. -/
theorem claim_C2_witness :
    runRetry 9 invokeRetryLimit 1
      (List.replicate 1 (some .retriable) ++ some (.success HttpResponse.new 0) :: [])
      = some (.ok (HttpResponse.new, 0)) :=
  (claim_C2_retry_limit 9).2.2.2.2.2.1 1 HttpResponse.new 0 [] (by decide)

/-- C10: `PerfRoute::process` is `todo!()` — it panics for every incoming
request instead of performing the geobase rewrite its module documentation
and the spec describe; the `SingleChunkReadDispatch` part does render a
primitive integer reply `n` as HTTP 200 with body `"[<n>]"` and a matching
`Content-Length`. -/
theorem claim_C10_perf :
    (∀ uri, perfProcess uri = .panicked "not yet implemented")
    ∧ (∀ (dbg : CocaineError → String) (v : Int),
        singleChunkProcess dbg (.ok v)
          = (none,
            [(((HttpResponse.new.withStatus 200).withHeader "Content-Length"
                (toString (strBytes ("[" ++ toString v ++ "]")).length)).withBody
                (strBytes ("[" ++ toString v ++ "]")),
              (strBytes ("[" ++ toString v ++ "]")).length)])) := by
  constructor
  · intro uri
    rfl
  · intro dbg v
    rfl

/-- C9 (amended): a provided `settings.timeout` appends a `request_timeout`
header holding the 8-byte little-endian encoding of the saturating `u64`
cast of `timeout * 1000` (the f64 product idealised as the exact rational
product), and for non-negative in-range timeouts the value decodes, as a
little-endian u64, to `floor(timeout * 1000)` — the floor, not the
rounding, of the millisecond product. -/
theorem claim_C9_timeout_header :
    (∀ (base : List RawHeader) (policy : TracingPolicy) (draw : ℚ) (verbose : Bool)
        (attempt : Nat) (latch : Bool) (t : ℚ),
      (make_future_headers base policy draw { timeout := some t, verbose := verbose }
        attempt latch).1
      = (make_future_headers base policy draw { timeout := none, verbose := verbose }
          attempt latch).1 ++ [requestTimeoutHeader (f64AsU64 (t * 1000))])
    ∧ (∀ t : ℚ, 0 ≤ t → t * 1000 < 2 ^ 64 →
        unpack_u64 (requestTimeoutHeader (f64AsU64 (t * 1000))).value
          = Int.toNat ⌊t * 1000⌋
        ∧ (requestTimeoutHeader (f64AsU64 (t * 1000))).value.length = 8) := by
  constructor
  · intro base policy draw verbose attempt latch t
    rfl
  · intro t h0 hlt
    have hf0 : (0 : ℤ) ≤ ⌊t * 1000⌋ := by
      apply Int.floor_nonneg.mpr
      positivity
    have hflt : ⌊t * 1000⌋ < (2 : ℤ) ^ 64 := by
      apply Int.floor_lt.mpr
      push_cast
      exact hlt
    have htn : Int.toNat ⌊t * 1000⌋ < 2 ^ 64 := by omega
    have hmin : f64AsU64 (t * 1000) = Int.toNat ⌊t * 1000⌋ := by
      unfold f64AsU64
      omega
    constructor
    · show unpack_u64 (pack_u64 (f64AsU64 (t * 1000))) = _
      rw [hmin, unpack_pack_u64 _ htn]
    · show (pack_u64 (f64AsU64 (t * 1000))).length = 8
      exact pack_u64_length _
/-- C9 witness: timeout 3/2 seconds gives 1500 milliseconds. -/
theorem claim_C9_witness :
    unpack_u64 (requestTimeoutHeader (f64AsU64 ((3 : ℚ)/2 * 1000))).value
      = Int.toNat ⌊(3 : ℚ)/2 * 1000⌋
    ∧ (requestTimeoutHeader (f64AsU64 ((3 : ℚ)/2 * 1000))).value.length = 8 :=
  claim_C9_timeout_header.2 ((3 : ℚ)/2) (by norm_num) (by norm_num)

/-- C9 counterexample: at timeout 1/80 s the millisecond product is exactly
12.5 (a value the f64 product attains exactly); the header decodes to 12,
while `round(timeout * 1000)` is 13 — decoding does NOT yield the rounded
product. -/
theorem claim_C9_counterexample :
    unpack_u64 (requestTimeoutHeader (f64AsU64 ((1 : ℚ)/80 * 1000))).value = 12
    ∧ round ((1 : ℚ)/80 * 1000) = 13
    ∧ (12 : ℤ) ≠ 13 := by
  have hf : f64AsU64 ((1 : ℚ)/80 * 1000) = 12 := by
    have hfl : (⌊(1 : ℚ)/80 * 1000⌋ : ℤ) = 12 := by norm_num
    unfold f64AsU64
    rw [hfl]
    rfl
  refine ⟨?_, ?_, by decide⟩
  · show unpack_u64 (pack_u64 (f64AsU64 ((1 : ℚ)/80 * 1000))) = 12
    rw [hf]
    decide
  · rw [round_eq]
    norm_num

theorem retryStep_iterate_headers (m : AppWithSafeRetry) (k : Nat) :
    (retryStep^[k] m).headers = m.headers := by
  induction k with
  | zero => rfl
  | succ k ih => simp [Function.iterate_succ_apply', retryStep, ih]

theorem valuesNamed_append (n : String) (a b : List RawHeader) :
    valuesNamed n (a ++ b) = valuesNamed n a ++ valuesNamed n b := by
  simp [valuesNamed, List.filter_append]

theorem valuesNamed_eq_nil (n : String) (l : List RawHeader)
    (h : ∀ x ∈ l, (x.name == n) = false) : valuesNamed n l = [] := by
  unfold valuesNamed
  have : l.filter (fun h => h.name == n) = [] := by
    rw [List.filter_eq_nil_iff]
    intro a ha
    simp [h a ha]
  rw [this]
  rfl

theorem ite_append_eq (c : Prop) [Decidable c] (base x : List RawHeader) :
    (if c then base ++ x else base) = base ++ (if c then x else []) := by
  split <;> simp

theorem all_names_ite_traceBit (b : Bool) :
    ((if b = true then [traceBitHeader true] else []).all
      (fun h => h.name == "trace_bit" || h.name == "request_timeout")) = true := by
  cases b <;> rfl

theorem all_names_ite_traceBit_timeout (b : Bool) (m : Nat) :
    (((if b = true then [traceBitHeader true] else []) ++ [requestTimeoutHeader m]).all
      (fun h => h.name == "trace_bit" || h.name == "request_timeout")) = true := by
  cases b <;> rfl

/-- The wire headers of one attempt are the stored base headers plus only
`trace_bit` / `request_timeout` entries. -/
theorem make_future_headers_decompose (base : List RawHeader)
    (policy : TracingPolicy) (draw : ℚ) (settings : Settings) (attempt : Nat)
    (latchIn : Bool) :
    ∃ extra : List RawHeader,
      (make_future_headers base policy draw settings attempt latchIn).1 = base ++ extra
      ∧ extra.all (fun h => h.name == "trace_bit" || h.name == "request_timeout") = true := by
  unfold make_future_headers
  cases ht : settings.timeout with
  | none =>
    simp only [ht]
    rw [ite_append_eq]
    exact ⟨_, rfl, all_names_ite_traceBit _⟩
  | some t =>
    simp only [ht]
    rw [ite_append_eq, List.append_assoc]
    exact ⟨_, rfl, all_names_ite_traceBit_timeout _ _⟩

/-- C1 (amended): on EVERY attempt `k` of the safe-retry machine the wire
headers carry `TraceId(trace)`, `ParentId(trace)` and `SpanId(span)` for
the single `span` drawn at construction: the (trace, parent) pair is
identical across attempts, and the span is ALSO identical across attempts
— `make_headers` runs once in `new`, so no fresh span is drawn per
attempt; only the `Manual` tracing draw is re-evaluated per attempt. -/
theorem claim_C1_span_identity :
    ∀ (userHeaders : List RawHeader) (trace span limit : Nat)
      (policy : TracingPolicy) (k : Nat) (draw : ℚ) (settings : Settings)
      (latch : Bool),
    userHeaders.all (fun h =>
        h.name != "trace_id" && h.name != "span_id" && h.name != "parent_id") = true →
    valuesNamed "trace_id"
        (make_future_headers
          (retryStep^[k] (AppWithSafeRetry.new userHeaders trace span limit policy)).headers
          policy draw settings
          (retryStep^[k] (AppWithSafeRetry.new userHeaders trace span limit policy)).attempts
          latch).1
      = [pack_u64 trace]
    ∧ valuesNamed "span_id"
        (make_future_headers
          (retryStep^[k] (AppWithSafeRetry.new userHeaders trace span limit policy)).headers
          policy draw settings
          (retryStep^[k] (AppWithSafeRetry.new userHeaders trace span limit policy)).attempts
          latch).1
      = [pack_u64 span]
    ∧ valuesNamed "parent_id"
        (make_future_headers
          (retryStep^[k] (AppWithSafeRetry.new userHeaders trace span limit policy)).headers
          policy draw settings
          (retryStep^[k] (AppWithSafeRetry.new userHeaders trace span limit policy)).attempts
          latch).1
      = [pack_u64 trace] := by
  intro userHeaders trace span limit policy k draw settings latch hclean
  have hhd : (retryStep^[k] (AppWithSafeRetry.new userHeaders trace span limit policy)).headers
      = make_headers userHeaders trace span :=
    retryStep_iterate_headers _ k
  obtain ⟨extra, hdec, hall⟩ := make_future_headers_decompose
    (retryStep^[k] (AppWithSafeRetry.new userHeaders trace span limit policy)).headers
    policy draw settings
    (retryStep^[k] (AppWithSafeRetry.new userHeaders trace span limit policy)).attempts
    latch
  have huser : ∀ n : String, n = "trace_id" ∨ n = "span_id" ∨ n = "parent_id" →
      valuesNamed n userHeaders = [] := by
    intro n hn
    apply valuesNamed_eq_nil
    intro x hx
    have hA := List.all_eq_true.mp hclean x hx
    simp only [Bool.and_eq_true, bne_iff_ne] at hA
    obtain ⟨⟨h1, h2⟩, h3⟩ := hA
    rcases hn with rfl | rfl | rfl
    · exact beq_eq_false_iff_ne.mpr h1
    · exact beq_eq_false_iff_ne.mpr h2
    · exact beq_eq_false_iff_ne.mpr h3
  have hextra : ∀ n : String, n ≠ "trace_bit" → n ≠ "request_timeout" →
      valuesNamed n extra = [] := by
    intro n h1 h2
    apply valuesNamed_eq_nil
    intro x hx
    have hA := List.all_eq_true.mp hall x hx
    simp only [Bool.or_eq_true, beq_iff_eq] at hA
    rcases hA with h | h
    · rw [h]; exact beq_eq_false_iff_ne.mpr (Ne.symm h1)
    · rw [h]; exact beq_eq_false_iff_ne.mpr (Ne.symm h2)
  refine ⟨?_, ?_, ?_⟩
  · rw [hdec, hhd, make_headers, valuesNamed_append, valuesNamed_append,
      huser "trace_id" (Or.inl rfl), hextra "trace_id" (by decide) (by decide)]
    simp only [List.nil_append, List.append_nil]
    rfl
  · rw [hdec, hhd, make_headers, valuesNamed_append, valuesNamed_append,
      huser "span_id" (Or.inr (Or.inl rfl)), hextra "span_id" (by decide) (by decide)]
    simp only [List.nil_append, List.append_nil]
    rfl
  · rw [hdec, hhd, make_headers, valuesNamed_append, valuesNamed_append,
      huser "parent_id" (Or.inr (Or.inr rfl)), hextra "parent_id" (by decide) (by decide)]
    simp only [List.nil_append, List.append_nil]
    rfl

/-- C1 witness: on the second attempt of a machine built with trace 5 and
span 7, the three tracing headers are exactly 5, 7, 5. -/
theorem claim_C1_witness :
    valuesNamed "trace_id"
        (make_future_headers
          (retryStep^[1] (AppWithSafeRetry.new [] 5 7 3 .auto)).headers
          .auto 0 { timeout := none, verbose := false }
          (retryStep^[1] (AppWithSafeRetry.new [] 5 7 3 .auto)).attempts
          false).1
      = [pack_u64 5]
    ∧ valuesNamed "span_id"
        (make_future_headers
          (retryStep^[1] (AppWithSafeRetry.new [] 5 7 3 .auto)).headers
          .auto 0 { timeout := none, verbose := false }
          (retryStep^[1] (AppWithSafeRetry.new [] 5 7 3 .auto)).attempts
          false).1
      = [pack_u64 7]
    ∧ valuesNamed "parent_id"
        (make_future_headers
          (retryStep^[1] (AppWithSafeRetry.new [] 5 7 3 .auto)).headers
          .auto 0 { timeout := none, verbose := false }
          (retryStep^[1] (AppWithSafeRetry.new [] 5 7 3 .auto)).attempts
          false).1
      = [pack_u64 5] :=
  claim_C1_span_identity [] 5 7 3 .auto 1 0 { timeout := none, verbose := false } false
    (by decide)

/-- C1 counterexample: attempts 1 and 2 of a machine built with span 7
carry the very same `span_id` header value 7 — the span is not refreshed
by a fresh random draw on the new attempt, so the two attempts' spans
coincide instead of being distinct with probability 1 − 2⁻⁶⁴. -/
theorem claim_C1_counterexample :
    valuesNamed "span_id"
        (make_future_headers (AppWithSafeRetry.new [] 5 7 3 .auto).headers
          .auto 0 { timeout := none, verbose := false }
          (AppWithSafeRetry.new [] 5 7 3 .auto).attempts false).1
      = [pack_u64 7]
    ∧ valuesNamed "span_id"
        (make_future_headers (retryStep (AppWithSafeRetry.new [] 5 7 3 .auto)).headers
          .auto 0 { timeout := none, verbose := false }
          (retryStep (AppWithSafeRetry.new [] 5 7 3 .auto)).attempts false).1
      = [pack_u64 7] :=
  ⟨by decide, by decide⟩

/-- C3 (amended): parameter extraction checks the override headers first
(both present wins, exactly one is the incomplete-pair error), then
matches the URI against the route regex — which is UNANCHORED: it matches
at the leftmost slash anywhere in the URI and yields `Match::None` exactly
when the URI holds fewer than two slashes; on a match the extracted tail
is normalised to begin with `/`. -/
theorem claim_C3_extraction :
    (∀ s e uri, extract_parameters (some s) (some e) uri = some (.ok (s, e, uri)))
    ∧ (∀ s uri, extract_parameters (some s) none uri
        = some (.error .incompleteHeadersMatch))
    ∧ (∀ e uri, extract_parameters none (some e) uri
        = some (.error .incompleteHeadersMatch))
    ∧ (∀ uri, List.count '/' uri.toList < 2 →
        extract_parameters none none uri = none)
    ∧ (∀ uri res, extract_parameters none none uri = some res →
        ∃ svc ev tail, res = .ok (svc, ev, tail)
          ∧ tail.toList.head? = some '/') := by
  refine ⟨fun s e uri => rfl, fun s uri => rfl, fun e uri => rfl, ?_, ?_⟩
  · intro uri h
    show (regexCaptures uri.toList).map _ = none
    rw [(regexCaptures_eq_none_iff uri.toList).mpr h]
    rfl
  · intro uri res h
    cases hcap : regexCaptures uri.toList with
    | none =>
      simp only [extract_parameters, hcap, Option.map_none'] at h
      cases h
    | some cap =>
      simp only [extract_parameters, hcap, Option.map_some', Option.some.injEq] at h
      subst h
      refine ⟨String.mk cap.1, String.mk cap.2.1,
        String.mk (if cap.2.2.head? = some '/' then cap.2.2 else '/' :: cap.2.2),
        rfl, ?_⟩
      by_cases hh : cap.2.2.head? = some '/'
      · rw [if_pos hh]
        exact hh
      · rw [if_neg hh]
        rfl

/-- C3 witness: the URI "*" (for example an asterisk-form request target)
holds fewer than two slashes, so the route does not match. -/
theorem claim_C3_witness :
    extract_parameters none none "*" = none :=
  claim_C3_extraction.2.2.2.1 "*" (by decide)

/-- C3 counterexample: "http://h/a/b" does not match the ANCHORED pattern
named by the spec (it does not start with a slash), so the claim requires
`Match::None`; the code's unanchored regex matches at the first slash and
extracts service "", event "h", tail "/a/b". -/
theorem claim_C3_counterexample :
    extract_parameters none none "http://h/a/b" = some (.ok ("", "h", "/a/b"))
    ∧ regexCapturesAnchored "http://h/a/b".toList = none :=
  ⟨by decide, by decide⟩

/-- C6 (amended): on a first data frame whose meta decodes, the dispatcher
continues (sending nothing), initialises an empty body buffer, and builds
the response state as follows: the status is `meta.code` truncated to 16
bits by the `as u16` cast, with truncated values outside 100..=599 mapped
to 500; `X-Request-Id: trace` is set before the meta headers; each
`meta.headers` entry is applied through hyper's `set_raw`, which REPLACES
an existing header of the same case-insensitive name — for duplicate
names the LAST entry wins, and duplicates are NOT preserved. -/
theorem claim_C6_meta_frame :
    ∀ (decode : List Nat → Except String ResponseMeta) (st : AppReadDispatch)
      (data : List Nat) (meta : ResponseMeta) (r0 : HttpResponse),
    st.body = none → st.response = some r0 → decode data = .ok meta →
    appReadProcess decode st (.chunk data)
      = (some
          { st with
            response := some (applyMeta st.trace r0 meta)
            body := some [] },
          [])
    ∧ (applyMeta st.trace r0 meta).status
        = (if 100 ≤ meta.code % 65536 ∧ meta.code % 65536 ≤ 599
            then meta.code % 65536 else 500)
    ∧ (∀ n v, metaLookup meta.headers n = some v →
        getHeaderCI (applyMeta st.trace r0 meta).headers n = some v)
    ∧ (∀ n, metaLookup meta.headers n = none →
        getHeaderCI (applyMeta st.trace r0 meta).headers n
          = getHeaderCI (setHeader r0.headers "X-Request-Id" (toString st.trace)) n)
    ∧ (metaLookup meta.headers "X-Request-Id" = none →
        getHeaderCI (applyMeta st.trace r0 meta).headers "X-Request-Id"
          = some (toString st.trace)) := by
  intro decode st data meta r0 hb hr hd
  refine ⟨?_, rfl, ?_, ?_, ?_⟩
  · simp [appReadProcess, hb, hd, hr]
  · intro n v h
    exact getHeaderCI_metaSetFold_some meta.headers _ h
  · intro n h
    exact getHeaderCI_metaSetFold_none meta.headers _ h
  · intro h
    exact (getHeaderCI_metaSetFold_none meta.headers _ h).trans
      (getHeaderCI_setHeader_same r0.headers _ (nameMatches_refl _))

/-- C6 witness: a meta frame with code 200 and one backend header passes
through with status 200, the backend header visible and the trace header
set. -/
theorem claim_C6_witness :
    appReadProcess (fun _ => .ok { code := 200, headers := [("a", "b")] })
      (initDispatch .get 1) (.chunk [])
      = (some
          { initDispatch .get 1 with
            response := some (applyMeta 1 HttpResponse.new
              { code := 200, headers := [("a", "b")] })
            body := some [] },
          [])
    ∧ (applyMeta 1 HttpResponse.new { code := 200, headers := [("a", "b")] }).status
        = (if 100 ≤ 200 % 65536 ∧ 200 % 65536 ≤ 599 then 200 % 65536 else 500)
    ∧ (∀ n v, metaLookup [("a", "b")] n = some v →
        getHeaderCI (applyMeta 1 HttpResponse.new
          { code := 200, headers := [("a", "b")] }).headers n = some v)
    ∧ (∀ n, metaLookup [("a", "b")] n = none →
        getHeaderCI (applyMeta 1 HttpResponse.new
            { code := 200, headers := [("a", "b")] }).headers n
          = getHeaderCI (setHeader HttpResponse.new.headers "X-Request-Id"
              (toString (1 : Nat))) n)
    ∧ (metaLookup [("a", "b")] "X-Request-Id" = none →
        getHeaderCI (applyMeta 1 HttpResponse.new
            { code := 200, headers := [("a", "b")] }).headers "X-Request-Id"
          = some (toString (1 : Nat))) :=
  claim_C6_meta_frame (fun _ => .ok { code := 200, headers := [("a", "b")] })
    (initDispatch .get 1) [] { code := 200, headers := [("a", "b")] }
    HttpResponse.new rfl rfl rfl

/-- C6 counterexample: `meta.code = 65736` is not a valid HTTP status (it
is far above 599), yet the response status becomes 200, not 500: the
`as u16` cast truncates 65736 to 200 BEFORE the 100..=599 validation. -/
theorem claim_C6_counterexample :
    ((appReadProcess (fun _ => .ok { code := 65736, headers := [] })
        (initDispatch .get 1) (.chunk [])).1.map
      (fun st => st.response.map (fun r => r.status)))
      = some (some 200)
    ∧ (200 : Nat) ≠ 500 :=
  ⟨by decide, by decide⟩

/-- C5: when the stream closes after a valid meta frame, the dispatcher
replies once with the stored response; the buffered body is included and
its length reported as size, EXCEPT that no body is sent and size 0 is
reported when the request method is HEAD, the status is 204 or 304, the
buffer is empty, or the response carries `Content-Length: 0` — in the
HEAD/204/304 cases regardless of the buffered body's length. -/
theorem claim_C5_close_rules :
    ∀ (decode : List Nat → Except String ResponseMeta) (st : AppReadDispatch)
      (buf : List Nat) (r0 : HttpResponse),
    st.body = some buf → st.response = some r0 → r0.body = [] →
    appReadProcess decode st .close = (none, [some (closeResult st.method r0 buf)])
    ∧ (st.method = .head →
        (closeResult st.method r0 buf).1.body = [] ∧ (closeResult st.method r0 buf).2 = 0)
    ∧ (r0.status = 204 ∨ r0.status = 304 →
        (closeResult st.method r0 buf).1.body = [] ∧ (closeResult st.method r0 buf).2 = 0)
    ∧ (buf = [] →
        (closeResult st.method r0 buf).1.body = [] ∧ (closeResult st.method r0 buf).2 = 0)
    ∧ (contentLength r0.headers = some 0 →
        (closeResult st.method r0 buf).1.body = [] ∧ (closeResult st.method r0 buf).2 = 0)
    ∧ (st.method ≠ .head → ¬(r0.status = 204 ∨ r0.status = 304) → buf ≠ [] →
        contentLength r0.headers ≠ some 0 →
        (closeResult st.method r0 buf).1.body = buf
        ∧ (closeResult st.method r0 buf).2 = buf.length) := by
  intro decode st buf r0 hb hr hrb
  refine ⟨by simp [appReadProcess, hb, hr], ?_, ?_, ?_, ?_, ?_⟩
  · intro hm
    simp [closeResult, hm, hrb]
  · intro hs
    by_cases hm : st.method = .head
    · simp [closeResult, hm, hrb]
    · rcases hs with h | h <;> simp [closeResult, hm, h, hrb]
  · intro hbuf
    subst hbuf
    by_cases hm : st.method = .head
    · simp [closeResult, hm, hrb]
    · by_cases hs : r0.status = 204 ∨ r0.status = 304
      · rcases hs with h | h <;> simp [closeResult, hm, h, hrb]
      · rw [not_or] at hs
        simp [closeResult, hm, hs.1, hs.2, hrb]
  · intro hcl
    by_cases hm : st.method = .head
    · simp [closeResult, hm, hrb]
    · by_cases hs : r0.status = 204 ∨ r0.status = 304
      · rcases hs with h | h <;> simp [closeResult, hm, h, hrb]
      · rw [not_or] at hs
        simp [closeResult, hm, hs.1, hs.2, hcl, hrb]
  · intro hm hs hbuf hcl
    rw [not_or] at hs
    have hhb : ((!buf.isEmpty)
        && (((contentLength r0.headers).map (fun len => decide (0 < len))).getD true))
        = true := by
      rw [Bool.and_eq_true]
      constructor
      · simpa using hbuf
      · cases hc : contentLength r0.headers with
        | none => rfl
        | some l =>
          have hl : l ≠ 0 := by
            intro h0
            rw [h0] at hc
            exact hcl hc
          simp [Nat.pos_of_ne_zero hl]
    constructor
    · simp [closeResult, hm, hs.1, hs.2, hhb, HttpResponse.withBody]
    · simp [closeResult, hm, hs.1, hs.2, hhb]

/-- C5 witness: a GET response of status 200 with a 2-byte buffered body
and no Content-Length header sends the buffer and reports size 2. -/
theorem claim_C5_witness :
    appReadProcess (fun _ => .error "never")
        { method := .get, body := some [1, 2], trace := 3,
          response := some HttpResponse.new } .close
      = (none, [some (closeResult .get HttpResponse.new [1, 2])]) :=
  (claim_C5_close_rules (fun _ => .error "never")
    { method := .get, body := some [1, 2], trace := 3,
      response := some HttpResponse.new }
    [1, 2] HttpResponse.new rfl rfl rfl).1

/-- C4: dispatcher error handling: a service error of category 0x52ff and
code 1 resolves the one-shot with `none` (the safe-retry signal); a
service error of category 0x54ff (any code) resolves it with HTTP 500
carrying the message as body plus `X-Error-Generated-By: vicodyn`; any
other error resolves it with HTTP 500 and the message; `discard` replies
503 exactly for a service error of category 10 code 1 and 500 otherwise,
with the message as body and `X-Request-Id` set. -/
theorem claim_C4_error_taxonomy :
    ∀ (decode : List Nat → Except String ResponseMeta) (st : AppReadDispatch),
    (∀ msg, appReadProcess decode st (.err (.service 0x52ff 1 msg)) = (none, [none]))
    ∧ (∀ (code : Nat) (msg : String), ∃ r,
        appReadProcess decode st (.err (.service 0x54ff code msg))
          = (none, [some (r, (strBytes msg).length)])
        ∧ r.status = 500 ∧ r.body = strBytes msg
        ∧ getHeaderCI r.headers "X-Error-Generated-By" = some "vicodyn"
        ∧ getHeaderCI r.headers "X-Request-Id" = some (toString st.trace))
    ∧ (∀ e : CocaineError, (∀ msg, e ≠ .service 0x52ff 1 msg) → ∃ r,
        appReadProcess decode st (.err e)
          = (none, [some (r, (strBytes e.message).length)])
        ∧ r.status = 500 ∧ r.body = strBytes e.message
        ∧ getHeaderCI r.headers "X-Request-Id" = some (toString st.trace))
    ∧ (∀ e : CocaineError,
        ((∃ msg, e = .service 10 1 msg) → (appReadDiscard st e).1.status = 503)
        ∧ ((∀ msg, e ≠ .service 10 1 msg) → (appReadDiscard st e).1.status = 500)
        ∧ (appReadDiscard st e).1.body = strBytes e.message
        ∧ (appReadDiscard st e).2 = (strBytes e.message).length
        ∧ getHeaderCI (appReadDiscard st e).1.headers "X-Request-Id"
            = some (toString st.trace)) := by
  intro decode st
  refine ⟨fun msg => rfl, ?_, ?_, ?_⟩
  · intro code msg
    have hsafe : isSafeRetryError (.service 0x54ff code msg) = false := by
      simp [isSafeRetryError]
    refine ⟨(((HttpResponse.new.withStatus 500).withHeader "X-Request-Id"
        (toString st.trace)).withBody (strBytes msg)).withHeader
        "X-Error-Generated-By" "vicodyn", ?_, rfl, rfl, ?_, ?_⟩
    · simp [appReadProcess, hsafe, isVicodynError, CocaineError.message]
    · show getHeaderCI (setHeader (setHeader HttpResponse.new.headers "X-Request-Id"
        (toString st.trace)) "X-Error-Generated-By" "vicodyn") "X-Error-Generated-By"
        = some "vicodyn"
      exact getHeaderCI_setHeader_same _ _ (nameMatches_refl _)
    · show getHeaderCI (setHeader (setHeader HttpResponse.new.headers "X-Request-Id"
        (toString st.trace)) "X-Error-Generated-By" "vicodyn") "X-Request-Id"
        = some (toString st.trace)
      exact (getHeaderCI_setHeader_other _ _ (by decide)).trans
        (getHeaderCI_setHeader_same _ _ (nameMatches_refl _))
  · intro e he
    have hsafe : isSafeRetryError e = false := by
      cases e with
      | other m => rfl
      | service cat code m =>
        by_cases hcat : cat = 0x52ff
        · by_cases hcode : code = 1
          · exact absurd (by rw [hcat, hcode]) (he m)
          · simp [isSafeRetryError, hcode]
        · simp [isSafeRetryError, hcat]
    by_cases hvic : isVicodynError e = true
    · refine ⟨(((HttpResponse.new.withStatus 500).withHeader "X-Request-Id"
          (toString st.trace)).withBody (strBytes e.message)).withHeader
          "X-Error-Generated-By" "vicodyn", ?_, rfl, rfl, ?_⟩
      · simp [appReadProcess, hsafe, hvic, CocaineError.message]
      · show getHeaderCI (setHeader (setHeader HttpResponse.new.headers "X-Request-Id"
          (toString st.trace)) "X-Error-Generated-By" "vicodyn") "X-Request-Id"
          = some (toString st.trace)
        exact (getHeaderCI_setHeader_other _ _ (by decide)).trans
          (getHeaderCI_setHeader_same _ _ (nameMatches_refl _))
    · rw [Bool.not_eq_true] at hvic
      refine ⟨((HttpResponse.new.withStatus 500).withHeader "X-Request-Id"
          (toString st.trace)).withBody (strBytes e.message), ?_, rfl, rfl, ?_⟩
      · simp [appReadProcess, hsafe, hvic, CocaineError.message]
      · show getHeaderCI (setHeader HttpResponse.new.headers "X-Request-Id"
          (toString st.trace)) "X-Request-Id" = some (toString st.trace)
        exact getHeaderCI_setHeader_same _ _ (nameMatches_refl _)
  · intro e
    refine ⟨?_, ?_, rfl, rfl, ?_⟩
    · rintro ⟨msg, rfl⟩
      rfl
    · intro hne
      have hd : isDiscardUnavailable e = false := by
        cases e with
        | other m => rfl
        | service cat code m =>
          by_cases hcat : cat = 10
          · by_cases hcode : code = 1
            · exact absurd (by rw [hcat, hcode]) (hne m)
            · simp [isDiscardUnavailable, hcode]
          · simp [isDiscardUnavailable, hcat]
      show (appReadDiscard st e).1.status = 500
      unfold appReadDiscard
      rw [hd]
      rfl
    · show getHeaderCI (setHeader HttpResponse.new.headers "X-Request-Id"
        (toString st.trace)) "X-Request-Id" = some (toString st.trace)
      exact getHeaderCI_setHeader_same _ _ (nameMatches_refl _)

/-- C4 witness: a non-service error resolves the one-shot with HTTP 500,
the error message as body, and the trace header set. -/
theorem claim_C4_witness :
    ∃ r, appReadProcess (fun _ => .error "never")
        { method := .get, body := none, trace := 7, response := some HttpResponse.new }
        (.err (.other "boom"))
      = (none, [some (r, (strBytes (CocaineError.other "boom").message).length)])
    ∧ r.status = 500 ∧ r.body = strBytes (CocaineError.other "boom").message
    ∧ getHeaderCI r.headers "X-Request-Id" = some (toString (7 : Nat)) :=
  ((claim_C4_error_taxonomy (fun _ => .error "never")
    { method := .get, body := none, trace := 7,
      response := some HttpResponse.new }).2.2.1)
    (.other "boom") (fun _ h => CocaineError.noConfusion h)

/-- C8: the dispatcher resolves its one-shot exactly once per backend
call: every `process` call either returns a continuation dispatcher having
sent nothing, or returns no continuation having sent exactly one value —
so no terminating path (meta decode error, close frame, safe-retry signal,
other backend error) can double-fire, and no continuation path fires; a
whole stream fold has sent exactly one value when it has deregistered and
none while it is still registered (`discard` builds and sends exactly one
value by the shape of `appReadDiscard`). -/
theorem claim_C8_exactly_once :
    ∀ (decode : List Nat → Except String ResponseMeta),
    (∀ (st : AppReadDispatch) (item : StreamItem),
      ((appReadProcess decode st item).1.isSome = true
        ∧ (appReadProcess decode st item).2 = [])
      ∨ ((appReadProcess decode st item).1 = none
        ∧ (appReadProcess decode st item).2.length = 1))
    ∧ (∀ (st : AppReadDispatch) (items : List StreamItem),
      ((runDispatch decode st items).1.isSome = true
        ∧ (runDispatch decode st items).2 = [])
      ∨ ((runDispatch decode st items).1 = none
        ∧ (runDispatch decode st items).2.length = 1)) :=
  fun decode =>
    ⟨fun st item => appReadProcess_shape decode st item,
     fun st items => runDispatch_shape decode items st⟩

theorem metaLookup_eq_none_of_all (l : List (String × String)) (n : String)
    (h : ∀ p ∈ l, nameMatches p.1 n = false) : metaLookup l n = none := by
  unfold metaLookup
  have : l.reverse.find? (fun p => nameMatches p.1 n) = none := by
    rw [List.find?_eq_none]
    intro p hp
    simp [h p (List.mem_reverse.mp hp)]
  rw [this]
  rfl

/-- Unfolding one step of the dispatcher fold. -/
theorem runDispatch_cons (decode : List Nat → Except String ResponseMeta)
    (st : AppReadDispatch) (i : StreamItem) (rest : List StreamItem) :
    runDispatch decode st (i :: rest)
      = match appReadProcess decode st i with
        | (none, evs) => (none, evs)
        | (some st2, evs) =>
          ((runDispatch decode st2 rest).1, evs ++ (runDispatch decode st2 rest).2) := by
  rw [runDispatch]

/-- Along a dispatcher run whose decoded metas never carry an
`X-Request-Id`-named header, a `some`-valued reply fired at deregistration
carries `X-Request-Id` equal to the dispatcher's trace. -/
theorem runDispatch_fired_trace
    (decode : List Nat → Except String ResponseMeta) (trace : Nat)
    (hyg : ∀ bs meta, decode bs = .ok meta →
      ∀ p ∈ meta.headers, nameMatches p.1 "X-Request-Id" = false) :
    ∀ (items : List StreamItem) (st : AppReadDispatch) (r : HttpResponse) (b : Nat),
    st.trace = trace →
    (∀ r0, st.response = some r0 → st.body.isSome = true →
      getHeaderCI r0.headers "X-Request-Id" = some (toString trace)) →
    (st.body.isSome = true → st.response.isSome = true) →
    runDispatch decode st items = (none, [some (r, b)]) →
    getHeaderCI r.headers "X-Request-Id" = some (toString trace) := by
  intro items
  induction items with
  | nil =>
    intro st r b htr hinv2 hinv3 hrun
    simp [runDispatch] at hrun
  | cons i rest ih =>
    intro st r b htr hinv2 hinv3 hrun
    cases i with
    | chunk data =>
      cases hb : st.body with
      | none =>
        cases hd : decode data with
        | error err =>
          have hstep : appReadProcess decode st (.chunk data)
              = (none, [some (((HttpResponse.new.withStatus 500).withHeader
                  "X-Request-Id" (toString st.trace)).withBody (strBytes err),
                  (strBytes err).length)]) := by
            simp [appReadProcess, hb, hd]
          rw [runDispatch_cons, hstep] at hrun
          simp only [Prod.mk.injEq, List.cons.injEq, Option.some.injEq,
            true_and, and_true] at hrun
          obtain ⟨hr1, -⟩ := hrun
          rw [← hr1, htr]
          show getHeaderCI (setHeader HttpResponse.new.headers "X-Request-Id"
            (toString trace)) "X-Request-Id" = some (toString trace)
          exact getHeaderCI_setHeader_same _ _ (nameMatches_refl _)
        | ok meta =>
          have hstep : appReadProcess decode st (.chunk data)
              = (some { st with
                  response := some (applyMeta st.trace
                    (st.response.getD HttpResponse.new) meta)
                  body := some [] }, []) := by
            simp [appReadProcess, hb, hd]
          rw [runDispatch_cons, hstep] at hrun
          simp only [List.nil_append, Prod.mk.eta] at hrun
          refine ih { st with
              response := some (applyMeta st.trace
                (st.response.getD HttpResponse.new) meta)
              body := some [] } r b htr ?_ ?_ hrun
          · intro r0 h0 _
            have h0x : some (applyMeta st.trace
                (st.response.getD HttpResponse.new) meta) = some r0 := h0
            obtain rfl := Option.some.inj h0x
            show getHeaderCI (applyMeta st.trace
              (st.response.getD HttpResponse.new) meta).headers "X-Request-Id"
              = some (toString trace)
            have hnone : metaLookup meta.headers "X-Request-Id" = none :=
              metaLookup_eq_none_of_all _ _ (hyg data meta hd)
            rw [← htr]
            exact (getHeaderCI_metaSetFold_none meta.headers _ hnone).trans
              (getHeaderCI_setHeader_same _ _ (nameMatches_refl _))
          · intro _
            rfl
      | some buf =>
        have hstep : appReadProcess decode st (.chunk data)
            = (some { st with body := some (buf ++ data) }, []) := by
          simp [appReadProcess, hb]
        rw [runDispatch_cons, hstep] at hrun
        simp only [List.nil_append, Prod.mk.eta] at hrun
        refine ih { st with body := some (buf ++ data) } r b htr ?_ ?_ hrun
        · intro r0 h0 _
          exact hinv2 r0 h0 (by rw [hb]; rfl)
        · intro _
          exact hinv3 (by rw [hb]; rfl)
    | close =>
      cases hb : st.body with
      | some buf =>
        have hstep : appReadProcess decode st .close
            = (none, [some (closeResult st.method
                (st.response.getD HttpResponse.new) buf)]) := by
          simp [appReadProcess, hb]
        rw [runDispatch_cons, hstep] at hrun
        simp only [Prod.mk.injEq, List.cons.injEq, Option.some.injEq,
          true_and, and_true] at hrun
        have hr1 : (closeResult st.method (st.response.getD HttpResponse.new) buf).1
            = r := by
          rw [hrun]
        have hrs : st.response.isSome = true := hinv3 (by rw [hb]; rfl)
        obtain ⟨r0, hr0⟩ := Option.isSome_iff_exists.mp hrs
        rw [← hr1, closeResult_headers, hr0, Option.getD_some]
        exact hinv2 r0 hr0 (by rw [hb]; rfl)
      | none =>
        have hstep : appReadProcess decode st .close
            = (none, [some (((HttpResponse.new.withStatus 500).withHeader
                "X-Request-Id" (toString st.trace)).withBody
                (strBytes "received `close` event without prior meta info"),
                (strBytes "received `close` event without prior meta info").length)]) := by
          simp [appReadProcess, hb]
        rw [runDispatch_cons, hstep] at hrun
        simp only [Prod.mk.injEq, List.cons.injEq, Option.some.injEq,
          true_and, and_true] at hrun
        obtain ⟨hr1, -⟩ := hrun
        rw [← hr1, htr]
        show getHeaderCI (setHeader HttpResponse.new.headers "X-Request-Id"
          (toString trace)) "X-Request-Id" = some (toString trace)
        exact getHeaderCI_setHeader_same _ _ (nameMatches_refl _)
    | err e =>
      by_cases hs : isSafeRetryError e = true
      · have hstep : appReadProcess decode st (.err e) = (none, [none]) := by
          simp [appReadProcess, hs]
        rw [runDispatch_cons, hstep] at hrun
        simp at hrun
      · rw [Bool.not_eq_true] at hs
        by_cases hv : isVicodynError e = true
        · have hstep : appReadProcess decode st (.err e)
              = (none, [some ((((HttpResponse.new.withStatus 500).withHeader
                  "X-Request-Id" (toString st.trace)).withBody
                  (strBytes e.message)).withHeader "X-Error-Generated-By" "vicodyn",
                  (strBytes e.message).length)]) := by
            simp [appReadProcess, hs, hv]
          rw [runDispatch_cons, hstep] at hrun
          simp only [Prod.mk.injEq, List.cons.injEq, Option.some.injEq,
            true_and, and_true] at hrun
          obtain ⟨hr1, -⟩ := hrun
          rw [← hr1, htr]
          show getHeaderCI (setHeader (setHeader HttpResponse.new.headers
            "X-Request-Id" (toString trace)) "X-Error-Generated-By" "vicodyn")
            "X-Request-Id" = some (toString trace)
          exact (getHeaderCI_setHeader_other _ _ (by decide)).trans
            (getHeaderCI_setHeader_same _ _ (nameMatches_refl _))
        · rw [Bool.not_eq_true] at hv
          have hstep : appReadProcess decode st (.err e)
              = (none, [some (((HttpResponse.new.withStatus 500).withHeader
                  "X-Request-Id" (toString st.trace)).withBody (strBytes e.message),
                  (strBytes e.message).length)]) := by
            simp [appReadProcess, hs, hv]
          rw [runDispatch_cons, hstep] at hrun
          simp only [Prod.mk.injEq, List.cons.injEq, Option.some.injEq,
            true_and, and_true] at hrun
          obtain ⟨hr1, -⟩ := hrun
          rw [← hr1, htr]
          show getHeaderCI (setHeader HttpResponse.new.headers "X-Request-Id"
            (toString trace)) "X-Request-Id" = some (toString trace)
          exact getHeaderCI_setHeader_same _ _ (nameMatches_refl _)

/-- A continuing `process` step never changes the dispatcher's trace. -/
theorem appReadProcess_trace (decode : List Nat → Except String ResponseMeta)
    (st : AppReadDispatch) (item : StreamItem) (st2 : AppReadDispatch)
    (evs : List ReplyEvent)
    (h : appReadProcess decode st item = (some st2, evs)) : st2.trace = st.trace := by
  cases item with
  | chunk data =>
    cases hb : st.body with
    | none =>
      cases hd : decode data with
      | error err => simp [appReadProcess, hb, hd] at h
      | ok meta =>
        simp only [appReadProcess, hb, hd] at h
        obtain ⟨h1, -⟩ := Prod.mk.injEq .. ▸ h
        obtain rfl := Option.some.inj h1
        rfl
    | some buf =>
      simp only [appReadProcess, hb] at h
      obtain ⟨h1, -⟩ := Prod.mk.injEq .. ▸ h
      obtain rfl := Option.some.inj h1
      rfl
  | close =>
    cases hb : st.body with
    | some buf => simp [appReadProcess, hb] at h
    | none => simp [appReadProcess, hb] at h
  | err e =>
    by_cases hs : isSafeRetryError e = true
    · simp [appReadProcess, hs] at h
    · rw [Bool.not_eq_true] at hs
      simp [appReadProcess, hs] at h

/-- A still-registered dispatcher fold never changes the trace. -/
theorem runDispatch_trace (decode : List Nat → Except String ResponseMeta) :
    ∀ (items : List StreamItem) (st st2 : AppReadDispatch) (evs : List ReplyEvent),
    runDispatch decode st items = (some st2, evs) → st2.trace = st.trace := by
  intro items
  induction items with
  | nil =>
    intro st st2 evs h
    simp only [runDispatch] at h
    obtain ⟨h1, -⟩ := Prod.mk.injEq .. ▸ h
    obtain rfl := Option.some.inj h1
    rfl
  | cons i rest ih =>
    intro st st2 evs h
    rw [runDispatch_cons] at h
    rcases hstep : appReadProcess decode st i with ⟨cont, evs1⟩
    rw [hstep] at h
    cases cont with
    | none => simp at h
    | some stm =>
      simp only at h
      obtain ⟨h1, -⟩ := Prod.mk.injEq .. ▸ h
      rcases hrest : runDispatch decode stm rest with ⟨cont2, evs2⟩
      rw [hrest] at h1
      cases cont2 with
      | none => simp at h1
      | some stf =>
        obtain rfl := Option.some.inj h1
        exact (ih stm stf evs2 hrest).trans
          (appReadProcess_trace decode st i stm evs1 hstep)

/-- A successful attempt outcome's response carries the trace header
(given meta hygiene). -/
theorem attemptOutcome_success_trace
    (decode : List Nat → Except String ResponseMeta) (method : Method) (trace : Nat)
    (hyg : ∀ bs meta, decode bs = .ok meta →
      ∀ p ∈ meta.headers, nameMatches p.1 "X-Request-Id" = false)
    (run : AttemptRun) (r : HttpResponse) (b : Nat)
    (h : attemptOutcome decode method trace run = some (.success r b)) :
    getHeaderCI r.headers "X-Request-Id" = some (toString trace) := by
  cases run with
  | canceled => simp [attemptOutcome] at h
  | stream items disc =>
    simp only [attemptOutcome] at h
    rcases hres : runDispatch decode (initDispatch method trace) items with ⟨cont, evs⟩
    rw [hres] at h
    cases cont with
    | none =>
      have hshape := runDispatch_shape decode items (initDispatch method trace)
      rw [hres] at hshape
      rcases hshape with ⟨hfalse, -⟩ | ⟨-, hlen⟩
      · simp at hfalse
      · simp only at hlen
        obtain ⟨ev, rfl⟩ := List.length_eq_one.mp hlen
        cases ev with
        | none => simp at h
        | some p =>
          rcases p with ⟨r2, b2⟩
          simp only [List.head?, Option.map_some'] at h
          obtain hx := Option.some.inj h
          obtain ⟨hr2, hb2⟩ := AttemptOutcome.success.injEq .. ▸ hx
          subst hr2
          subst hb2
          exact runDispatch_fired_trace decode trace hyg items
            (initDispatch method trace) r2 b2 rfl
            (by
              intro r0 h0 hbody
              simp [initDispatch] at hbody)
            (by
              intro hbody
              simp [initDispatch] at hbody)
            hres
    | some st2 =>
      cases disc with
      | none => simp at h
      | some e =>
        simp only [Option.some.injEq] at h
        obtain ⟨hr2, -⟩ := AttemptOutcome.success.injEq .. ▸ h
        subst hr2
        have htr2 : st2.trace = trace :=
          runDispatch_trace decode items (initDispatch method trace) st2 evs hres
        show getHeaderCI (setHeader HttpResponse.new.headers "X-Request-Id"
          (toString st2.trace)) "X-Request-Id" = some (toString trace)
        rw [htr2]
        exact getHeaderCI_setHeader_same _ _ (nameMatches_refl _)

/-- Any `Ok` completion of the retry loop carries the trace header,
provided every successful attempt outcome in the list does. -/
theorem runRetry_ok_trace (trace limit : Nat) :
    ∀ (os : List (Option AttemptOutcome)) (a : Nat) (r : HttpResponse) (b : Nat),
    (∀ o ∈ os, ∀ (r2 : HttpResponse) (b2 : Nat), o = some (.success r2 b2) →
      getHeaderCI r2.headers "X-Request-Id" = some (toString trace)) →
    runRetry trace limit a os = some (.ok (r, b)) →
    getHeaderCI r.headers "X-Request-Id" = some (toString trace) := by
  intro os
  induction os with
  | nil =>
    intro a r b _ hrun
    simp [runRetry] at hrun
  | cons o os ih =>
    intro a r b hall hrun
    cases o with
    | none => simp [runRetry] at hrun
    | some o =>
      cases o with
      | success r2 b2 =>
        simp only [runRetry, Option.some.injEq, Except.ok.injEq, Prod.mk.injEq] at hrun
        obtain ⟨hr, -⟩ := hrun
        rw [← hr]
        exact hall _ (List.mem_cons_self _ _) r2 b2 rfl
      | failure e => simp [runRetry] at hrun
      | retriable =>
        by_cases hlt : a < limit
        · simp only [runRetry, if_pos hlt] at hrun
          exact ih (a + 1) r b (fun o ho => hall o (List.mem_cons_of_mem _ ho)) hrun
        · simp only [runRetry, if_neg hlt, Option.some.injEq, Except.ok.injEq,
            Prod.mk.injEq] at hrun
          obtain ⟨hr, -⟩ := hrun
          rw [← hr]
          show getHeaderCI (setHeader HttpResponse.new.headers "X-Request-Id"
            (toString trace)) "X-Request-Id" = some (toString trace)
          exact getHeaderCI_setHeader_same _ _ (nameMatches_refl _)

theorem determineTrace_ok (header : Option String) (fresh t : Nat)
    (h : determineTrace header fresh = .ok t) : t = wireTraceOf header fresh := by
  cases header with
  | none =>
    simp only [determineTrace, Except.ok.injEq] at h
    rw [← h]
    rfl
  | some s =>
    cases hp : parseTraceHeader s with
    | none => simp [determineTrace, hp] at h
    | some v =>
      simp only [determineTrace, hp, Except.ok.injEq] at h
      rw [← h]
      simp [wireTraceOf, hp]

theorem getHeaderCI_finalize (service : String) (r : HttpResponse) :
    getHeaderCI (finalize service r).headers "X-Request-Id"
      = getHeaderCI r.headers "X-Request-Id" := by
  show getHeaderCI (setHeader (setHeader r.headers "X-Powered-By" xPoweredByValue)
    "X-Cocaine-App" service) "X-Request-Id" = _
  rw [getHeaderCI_setHeader_other _ _ (by decide),
    getHeaderCI_setHeader_other _ _ (by decide)]

/-- C7 (amended): an unparsable tracing header fails the request with
`InvalidRequestIdHeader`; a request that completes successfully carries
`X-Request-Id` equal to the trace used on the wire — the parsed incoming
tracing header when present, else the fresh random 64-bit value —
PROVIDED no backend meta header is itself named (case-insensitively)
`X-Request-Id`: such a backend header is applied through `set_raw` after
the trace header and REPLACES it. -/
theorem claim_C7_request_id :
    ∀ (decode : List Nat → Except String ResponseMeta) (header : Option String)
      (fresh : Nat) (service : String) (method : Method) (runs : List AttemptRun),
    (∀ bs meta, decode bs = .ok meta →
      ∀ p ∈ meta.headers, nameMatches p.1 "X-Request-Id" = false) →
    (∀ s, header = some s → parseTraceHeader s = none →
      invokeRun decode header fresh service method runs
        = some (.error (.invalidRequestIdHeader tracingHeaderName)))
    ∧ (∀ (resp : HttpResponse) (size : Nat),
        invokeRun decode header fresh service method runs = some (.ok (resp, size)) →
        getHeaderCI resp.headers "X-Request-Id"
          = some (toString (wireTraceOf header fresh))) := by
  intro decode header fresh service method runs hyg
  constructor
  · rintro s rfl hparse
    simp [invokeRun, determineTrace, hparse]
  · intro resp size h
    cases hdet : determineTrace header fresh with
    | error e =>
      simp [invokeRun, hdet] at h
    | ok t =>
      simp only [invokeRun, hdet] at h
      cases hrr : runRetry t invokeRetryLimit 1
          (runs.map (attemptOutcome decode method t)) with
      | none =>
        rw [hrr] at h
        simp at h
      | some res =>
        cases res with
        | error e =>
          rw [hrr] at h
          simp at h
        | ok p =>
          rcases p with ⟨r, sz⟩
          rw [hrr] at h
          simp only [Option.some.injEq, Except.ok.injEq, Prod.mk.injEq] at h
          obtain ⟨hresp, -⟩ := h
          rw [← hresp, getHeaderCI_finalize]
          rw [← determineTrace_ok header fresh t hdet]
          refine runRetry_ok_trace t invokeRetryLimit _ 1 r sz ?_ hrr
          intro o ho r2 b2 heq
          obtain ⟨arun, -, hao⟩ := List.mem_map.mp ho
          rw [heq] at hao
          exact attemptOutcome_success_trace decode method t hyg arun r2 b2 hao

/-- C7 witness: a happy-path run with no tracing header, fresh trace 1 and
a hygienic backend meta ends with `X-Request-Id: 1` on the final
response. -/
theorem claim_C7_witness :
    getHeaderCI ({
        status := 200
        headers := [("X-Request-Id", "1"), ("X-Powered-By", "Cocaine"),
          ("X-Cocaine-App", "svc")]
        body := [] } : HttpResponse).headers "X-Request-Id"
      = some (toString (wireTraceOf none 1)) :=
  (claim_C7_request_id (fun _ => .ok { code := 200, headers := [] })
    none 1 "svc" .get [.stream [.chunk [], .close] none]
    (by
      intro bs meta hm p hp
      injection hm with h
      subst h
      cases hp)).2
    {
      status := 200
      headers := [("X-Request-Id", "1"), ("X-Powered-By", "Cocaine"),
        ("X-Cocaine-App", "svc")]
      body := [] } 0 (by decide)

/-- C7 counterexample: a backend meta that itself carries an
`X-Request-Id` header makes the successfully completed response carry the
backend's value "666" instead of the wire trace "1" — `set_raw` replaces
the trace header the dispatcher had set. -/
theorem claim_C7_counterexample :
    ((invokeRun (fun _ => .ok { code := 200, headers := [("X-Request-Id", "666")] })
        none 1 "svc" .get [.stream [.chunk [], .close] none]).map
      (fun res => res.toOption.map (fun p => getHeaderCI p.1.headers "X-Request-Id")))
      = some (some (some "666"))
    ∧ toString (wireTraceOf none 1) = "1"
    ∧ ("666" : String) ≠ "1" :=
  ⟨by decide, by decide, by decide⟩
